import Mathlib

/-
Verification of the `screen` terminal-UI toolkit against its design
specification.  The Python sources under `src/screen/` are shallowly
embedded below: pure methods become Lean functions, Python exceptions
become `Except` values, Python ints become `ℤ`, Python floats appearing
in the color pipeline are tracked exactly as `ℚ`, and Python `set`s of
style codes become `Finset ℤ`.  Python floor division / floor modulo
(`>>`, `&`, `%` on ints) are embedded as `Int.ediv` / `Int.emod`, and
Python `int()` truncation toward zero as floor/ceil by sign.
-/

namespace Screen

/-- The Python exception kinds raised by the embedded code. -/
inductive PyError
  | notImplementedError
  | typeConstraintError
  | arithmeticError
  deriving DecidableEq, Repr

/-! ## `screen.drawing.style` — the `Style` value type

`Style.__init__` stores `set(values)`; `__eq__` compares the value sets;
`__or__` raises `ArithmeticError` when either side equals `Style.reset`
and otherwise builds `cls(*self.values, *other.values)`; `build` joins
the sorted values with `";"` inside `ESC[...m`. -/

/-- A drawable style: `self.values = set(values)` from `Style.__init__`. -/
structure Style where
  values : Finset ℤ
  deriving DecidableEq

/-- The variadic constructor `Style(*values)`: the argument list is
collapsed into a set. -/
def Style.ofList (vs : List ℤ) : Style :=
  ⟨vs.toFinset⟩

/-- `Style.reset`, the class attribute `reset = 0` turned into `Style(0)`
by `StyleMeta`. -/
def Style.reset : Style :=
  Style.ofList [0]

/-- `Style.__or__`: raises `ArithmeticError` when either operand equals
`Style.reset` (equality being value-set equality), otherwise returns
`cls(*self.values, *other.values)`, whose value set is the union. -/
def Style.or (x y : Style) : Except PyError Style :=
  if x = Style.reset ∨ y = Style.reset then
    .error .arithmeticError
  else
    .ok ⟨x.values ∪ y.values⟩

/-- `Style.build`: `"\x1B[" + ";".join(str(v) for v in sorted(self.values)) + "m"`. -/
def Style.build (s : Style) : String :=
  let codes := String.intercalate ";" ((s.values.sort (· ≤ ·)).map (fun v => toString v))
  "\x1B[" ++ codes ++ "m"

/-- Two styles are equal exactly when their value sets are
(`Style.__eq__` compares `self.values == other.values`). -/
theorem Style.val_inj {a b : Style} (h : a.values = b.values) : a = b := by
  cases a; cases b; simpa using h

/-! ### Claims C3, C4, C9 -/

/-- C3: `x | y` raises `ArithmeticError` if and only if `x` or `y` equals
`Style.reset` (the style whose value set is `{0}`); the operation is a
pure function of immutable value objects, so no operand is mutated. -/
theorem style_or_raises_iff_reset (x y : Style) :
    (Style.or x y = .error .arithmeticError ↔ (x = Style.reset ∨ y = Style.reset))
      ∧ (Style.reset.values = ({0} : Finset ℤ)) := by
  constructor
  · unfold Style.or
    by_cases h : x = Style.reset ∨ y = Style.reset
    · simp [h]
    · simp [h]
  · decide

/-- Sorting the value set of `Style(1, 4)` yields `[1, 4]`. -/
theorem style_sort_one_four :
    ((Style.ofList [1, 4]).values.sort (· ≤ ·)) = [1, 4] := by
  have hv : (Style.ofList [1, 4]).values = insert 1 ({4} : Finset ℤ) := by decide
  rw [hv, Finset.sort_insert, Finset.sort_singleton]
  · intro b hb
    simp at hb
    omega
  · decide

/-- C4: `|` on non-reset styles unions the value sets; `Style(1) | Style(4)`
has value set `{1, 4}` and builds `"\x1B[1;4m"`; `Style(1) == Style(1)` and
`Style(1) != Style(2)`. -/
theorem style_build_and_union :
    (∀ x y : Style, x ≠ Style.reset → y ≠ Style.reset →
        Style.or x y = .ok ⟨x.values ∪ y.values⟩)
      ∧ (∃ s : Style, Style.or (Style.ofList [1]) (Style.ofList [4]) = .ok s
          ∧ s.values = ({1, 4} : Finset ℤ))
      ∧ Style.build (Style.ofList [1, 4]) = "\x1B[1;4m"
      ∧ Style.ofList [1] = Style.ofList [1]
      ∧ Style.ofList [1] ≠ Style.ofList [2] := by
  have hunion : ∀ x y : Style, x ≠ Style.reset → y ≠ Style.reset →
      Style.or x y = .ok ⟨x.values ∪ y.values⟩ := by
    intro x y h1 h2
    unfold Style.or
    simp [h1, h2]
  refine ⟨hunion, ?_, ?_, rfl, ?_⟩
  · refine ⟨⟨(Style.ofList [1]).values ∪ (Style.ofList [4]).values⟩,
      hunion _ _ (by decide) (by decide), by decide⟩
  · unfold Style.build
    rw [style_sort_one_four]
    rfl
  · decide

/-- Witness for C4: the union clause applied to the concrete styles
`Style(1)` and `Style(4)`. -/
theorem style_build_and_union_witness :
    Style.or (Style.ofList [1]) (Style.ofList [4])
      = .ok ⟨(Style.ofList [1]).values ∪ (Style.ofList [4]).values⟩ :=
  style_build_and_union.1 (Style.ofList [1]) (Style.ofList [4])
    (by decide) (by decide)

/-- C9: on non-reset operands, `|` is commutative and idempotent, and
associative through the `Except` monad; the constructor collapses
duplicate integers, so `Style(1, 1) == Style(1)`. -/
theorem style_or_algebra (x y z : Style)
    (hx : x.values ≠ ({0} : Finset ℤ)) (hy : y.values ≠ ({0} : Finset ℤ))
    (hz : z.values ≠ ({0} : Finset ℤ)) :
    Style.or x y = Style.or y x
      ∧ Style.or x x = .ok x
      ∧ ((Style.or x y).bind (fun w => Style.or w z)
          = (Style.or y z).bind (fun w => Style.or x w))
      ∧ Style.ofList [1, 1] = Style.ofList [1] := by
  have hreset : Style.reset.values = ({0} : Finset ℤ) := by decide
  have hval : ∀ a : Style, a.values = ({0} : Finset ℤ) → a = Style.reset := by
    intro a h
    exact Style.val_inj (h.trans hreset.symm)
  have hx' : x ≠ Style.reset := fun h => hx (by rw [h]; exact hreset)
  have hy' : y ≠ Style.reset := fun h => hy (by rw [h]; exact hreset)
  have hz' : z ≠ Style.reset := fun h => hz (by rw [h]; exact hreset)
  have hunion : ∀ a b : Style, a ≠ Style.reset → b ≠ Style.reset →
      a.values ∪ b.values ≠ ({0} : Finset ℤ) := by
    intro a b ha hb hcon
    have h0 : (0 : ℤ) ∈ a.values ∪ b.values := by rw [hcon]; simp
    rcases Finset.mem_union.mp h0 with h | h
    · apply ha
      apply hval
      refine Finset.Subset.antisymm ?_ (Finset.singleton_subset_iff.mpr h)
      intro v hv
      have hm : v ∈ a.values ∪ b.values := Finset.mem_union_left _ hv
      rw [hcon] at hm; exact hm
    · apply hb
      apply hval
      refine Finset.Subset.antisymm ?_ (Finset.singleton_subset_iff.mpr h)
      intro v hv
      have hm : v ∈ a.values ∪ b.values := Finset.mem_union_right _ hv
      rw [hcon] at hm; exact hm
  refine ⟨?_, ?_, ?_, by decide⟩
  · unfold Style.or
    simp [hx', hy', Finset.union_comm]
  · unfold Style.or
    simp [hx', Finset.union_self]
  · have hxy : Style.or x y = .ok ⟨x.values ∪ y.values⟩ := by
      unfold Style.or; simp [hx', hy']
    have hyz : Style.or y z = .ok ⟨y.values ∪ z.values⟩ := by
      unfold Style.or; simp [hy', hz']
    rw [hxy, hyz]
    have hxyne : (⟨x.values ∪ y.values⟩ : Style) ≠ Style.reset := by
      intro h
      exact hunion x y hx' hy' (congrArg Style.values h)
    have hyzne : (⟨y.values ∪ z.values⟩ : Style) ≠ Style.reset := by
      intro h
      exact hunion y z hy' hz' (congrArg Style.values h)
    show Style.or ⟨x.values ∪ y.values⟩ z = Style.or x ⟨y.values ∪ z.values⟩
    unfold Style.or
    simp [hxyne, hyzne, hx', hz', Finset.union_assoc]

/-- Witness for C9: the algebra applied to the concrete non-reset styles
`Style(1)`, `Style(4)`, `Style(5)`. -/
theorem style_or_algebra_witness :
    Style.or (Style.ofList [1]) (Style.ofList [4])
        = Style.or (Style.ofList [4]) (Style.ofList [1])
      ∧ Style.or (Style.ofList [1]) (Style.ofList [1]) = .ok (Style.ofList [1])
      ∧ ((Style.or (Style.ofList [1]) (Style.ofList [4])).bind
            (fun w => Style.or w (Style.ofList [5]))
          = (Style.or (Style.ofList [4]) (Style.ofList [5])).bind
            (fun w => Style.or (Style.ofList [1]) w))
      ∧ Style.ofList [1, 1] = Style.ofList [1] :=
  style_or_algebra (Style.ofList [1]) (Style.ofList [4]) (Style.ofList [5])
    (by decide) (by decide) (by decide)

/-! ## `screen.controls.primitives` and `screen.utils`

The primitive enumerations and `screen.utils` are referenced by
`src/screen/controls/stack.py` and `src/screen/controls/popup.py` but
their modules are not part of the excerpted sources, so they are
modelled from the spec. -/

/-- Modelled from the spec: the `Bullet` primitive enumeration (a closed
set of layout choices, no logic beyond identity); only the member
`Bullet.none` — the declared default of `Stack.bullet` — is needed. -/
inductive Bullet
  | none
  deriving DecidableEq, Repr

/-- Modelled from the spec: the `Orientation` primitive enumeration with
the horizontal/vertical layout axes. -/
inductive Orientation
  | horizontal
  | vertical
  deriving DecidableEq, Repr

/-- Modelled from the spec: the `Placement` primitive enumeration; only
`Placement.cursor` — the declared default of `Popup.placement` — is
needed. -/
inductive Placement
  | cursor
  deriving DecidableEq, Repr

namespace utils

/-- Modelled from the spec: `screen.utils.len`, the rendered width of a
string bullet; the spec uses plain string length as the layout-equivalence
witness ("equal length required as witness"). -/
def len (s : String) : ℕ :=
  s.length

/-- Modelled from the spec: `screen.utils.interpolate`, linear
interpolation between `a` and `b` at point `p` ("calculates linear
interpolation", "linearly interpolates component-wise"). -/
def interpolate (a b p : ℚ) : ℚ :=
  a + (b - a) * p

end utils

/-! ## The property descriptor system (`screen.controls.property`)

The descriptor machinery itself is not under the excerpted sources; it
is modelled from spec §4.1: a descriptor holds a type spec (single type
or closed union), a default, a nullability flag and two invalidation
rules, each either a constant boolean or a predicate over
`(old, new)`.  Assignment checks type/nullability (raising
`TypeConstraintError` and leaving the stored value unmodified on
violation), stores the new value, and ORs the fired rules into the
owning control's dirty flags. -/

/-- A runtime property value: `null` (Python `None`) or a member of one
of the value types the excerpted declarations use. -/
inductive Value
  | null
  | int (n : ℤ)
  | str (s : String)
  | bullet (b : Bullet)
  | orientation (o : Orientation)
  | placement (p : Placement)
  deriving DecidableEq, Repr

/-- The declarable value types (tags of non-null `Value`s). -/
inductive Ty
  | int
  | str
  | bullet
  | orientation
  | placement
  deriving DecidableEq, Repr

/-- The type tag of a value; `none` for `null`. -/
def Value.tag : Value → Option Ty
  | .null => Option.none
  | .int _ => some .int
  | .str _ => some .str
  | .bullet _ => some .bullet
  | .orientation _ => some .orientation
  | .placement _ => some .placement

/-- An invalidation rule: a constant boolean or a predicate over
`(old, new)` (spec §9: `Always | Never | Predicate(fn(old,new)->bool)`). -/
inductive InvalidationRule
  | const (b : Bool)
  | pred (f : Value → Value → Bool)

/-- Rule evaluation per spec §4.1: a constant is used directly, a
callable is invoked with `(old, new)`. -/
def InvalidationRule.eval : InvalidationRule → Value → Value → Bool
  | .const b, _, _ => b
  | .pred f, old, new => f old new

/-- Modelled from the spec: a property descriptor
(`define(type_spec, default, nullable, measure_rule, paint_rule)`). -/
structure Descriptor where
  typeSpec : List Ty
  defaultValue : Value
  nullable : Bool
  measureRule : InvalidationRule
  paintRule : InvalidationRule

/-- The `property(...)` declaration helper used by the control classes. -/
def property (typeSpec : List Ty) (defaultValue : Value) (nullable : Bool)
    (measureRule paintRule : InvalidationRule) : Descriptor :=
  ⟨typeSpec, defaultValue, nullable, measureRule, paintRule⟩

/-- The slice of a control's state owned by one property: the stored
value and the control's two dirty flags (spec §3/§4.2). -/
structure PropState where
  value : Value
  measureDirty : Bool
  paintDirty : Bool
  deriving DecidableEq, Repr

/-- Whether a proposed value passes the descriptor's type/nullability
check (spec §4.1: a null value needs `nullable`; a non-null value must
belong to the declared type or closed union). -/
def Descriptor.accepts (d : Descriptor) (v : Value) : Bool :=
  match v.tag with
  | Option.none => d.nullable
  | some t => d.typeSpec.contains t

/-- Modelled from the spec: descriptor assignment (spec §4.1).  A value
failing the type/nullability check raises `TypeConstraintError`;
otherwise the descriptor stores the new value and ORs the evaluated
measure/paint rules into the control's dirty flags. -/
def Descriptor.assign (d : Descriptor) (s : PropState) (new : Value) :
    Except PyError PropState :=
  if d.accepts new then
    .ok { value := new,
          measureDirty := s.measureDirty || d.measureRule.eval s.value new,
          paintDirty := s.paintDirty || d.paintRule.eval s.value new }
  else
    .error .typeConstraintError

/-- Assignment as the control observes it: on error the exception
propagates and the property state is left untouched. -/
def Descriptor.assignOrKeep (d : Descriptor) (s : PropState) (new : Value) :
    PropState × Option PyError :=
  match d.assign s new with
  | .ok s2 => (s2, Option.none)
  | .error e => (s, some e)

/-! ## `screen.controls.stack` -/

/-- `_bullet_invalidate_measure(before, after)`:
`not (isinstance(before, str) and isinstance(after, str) and len(before) == len(after))`;
the conjunction short-circuits, so `len` is only consulted when both
operands are strings. -/
def _bullet_invalidate_measure (before after : Value) : Bool :=
  match before, after with
  | .str s, .str t => !(utils.len s == utils.len t)
  | _, _ => true

/-- A `Stack` instance, abstracted to what `measure_core`/`render_core`
could consume: its children reduced to their fixed natural sizes
`(height, width)`, the inter-child spacing and the orientation. -/
structure Stack where
  children : List (ℤ × ℤ)
  spacing : ℤ
  orientation : Orientation

/-- The `Stack.bullet` property declaration:
`property(Union[Bullet, str], Bullet.none, True, _bullet_invalidate_measure, True)`. -/
def Stack.bullet : Descriptor :=
  property [Ty.bullet, Ty.str] (.bullet .none) true
    (.pred _bullet_invalidate_measure) (.const true)

/-- `Stack.measure_core(self, h, w)`: the body is `raise NotImplementedError`. -/
def Stack.measure_core (_self : Stack) (_h _w : ℤ) : Except PyError (ℤ × ℤ) :=
  .error .notImplementedError

/-- `Stack.render_core(self, h, w)`: the body is `raise NotImplementedError`. -/
def Stack.render_core (_self : Stack) (_h _w : ℤ) : Except PyError Unit :=
  .error .notImplementedError

/-! ## `screen.controls.popup` -/

namespace Popup

/-- The `Popup.horizontal_offset` declaration:
`property(int, 0, True, False, False)`. -/
def horizontal_offset : Descriptor :=
  property [Ty.int] (.int 0) true (.const false) (.const false)

/-- The `Popup.placement` declaration:
`property(Placement, Placement.cursor, True, False, False)`. -/
def placement : Descriptor :=
  property [Ty.placement] (.placement .cursor) true (.const false) (.const false)

/-- The `Popup.vertical_offset` declaration:
`property(int, 0, True, False, False)`. -/
def vertical_offset : Descriptor :=
  property [Ty.int] (.int 0) true (.const false) (.const false)

end Popup

/-! ### Claims C1, C2, C8, C10 -/

/-- C1 (code bug): the spec's stack layout algorithm — width equal to
the summed child widths plus `spacing * (count - 1)`, height the maximum
child height — is not implemented: `Stack.measure_core` unconditionally
raises `NotImplementedError`, so the horizontal stack of fixed-size
children `(2,3), (5,4), (1,5)` with spacing `2` does not measure to the
claimed `(5, 3 + 4 + 5 + 2 * 2)`. -/
theorem stack_measure_core_unimplemented :
    (∀ (s : Stack) (h w : ℤ), Stack.measure_core s h w = .error .notImplementedError)
      ∧ Stack.measure_core ⟨[(2, 3), (5, 4), (1, 5)], 2, .horizontal⟩ 100 100
          ≠ .ok (5, 16) := by
  refine ⟨fun _ _ _ => rfl, ?_⟩
  intro hcon
  exact Except.noConfusion hcon

/-- C2: the bullet measure-invalidation predicate returns `false`
exactly on two strings of equal length; `"*" -> "#"` leaves measure
clean, `"*" -> "**"` dirties it; the bullet paint rule is the constant
`True`. -/
theorem bullet_invalidation_rule :
    (∀ b a : Value, _bullet_invalidate_measure b a = false ↔
        ∃ s t : String, b = .str s ∧ a = .str t ∧ utils.len s = utils.len t)
      ∧ _bullet_invalidate_measure (.str "*") (.str "#") = false
      ∧ _bullet_invalidate_measure (.str "*") (.str "**") = true
      ∧ Stack.bullet.paintRule = .const true := by
  refine ⟨?_, by decide, by decide, rfl⟩
  intro b a
  cases b <;> cases a <;>
    simp [_bullet_invalidate_measure]

/-- C8: assigning a value that fails the declared type/union or
nullability check raises `TypeConstraintError` synchronously and leaves
the stored property value unmodified; an accepted assignment stores
exactly the proposed value (no coercion). -/
theorem property_type_enforcement (d : Descriptor) (s : PropState) (new : Value) :
    (d.assign s new = .error .typeConstraintError
        ↔ ((new = .null ∧ d.nullable = false)
            ∨ (∃ t, new.tag = some t ∧ d.typeSpec.contains t = false)))
      ∧ (∀ s2, d.assign s new = .ok s2 → s2.value = new)
      ∧ ((d.assignOrKeep s new).2.isSome → (d.assignOrKeep s new).1 = s) := by
  have htag : new.tag = Option.none ↔ new = .null := by
    cases new <;> simp [Value.tag]
  refine ⟨?_, ?_, ?_⟩
  · unfold Descriptor.assign
    by_cases hacc : d.accepts new = true
    · simp only [hacc, if_pos]
      constructor
      · intro hcon; exact Except.noConfusion hcon
      · intro hcase
        exfalso
        unfold Descriptor.accepts at hacc
        rcases hcase with ⟨hnull, hnn⟩ | ⟨t, ht, hc⟩
        · rw [hnull] at hacc
          have hacc2 : d.nullable = true := hacc
          rw [hacc2] at hnn
          exact Bool.noConfusion hnn
        · rw [ht] at hacc
          have hacc2 : d.typeSpec.contains t = true := hacc
          rw [hc] at hacc2
          exact Bool.noConfusion hacc2
    · rw [if_neg hacc]
      simp only [true_iff]
      unfold Descriptor.accepts at hacc
      cases hnew : new.tag with
      | none =>
        left
        refine ⟨htag.mp hnew, ?_⟩
        rw [hnew] at hacc
        simp at hacc
        exact hacc
      | some t =>
        right
        refine ⟨t, rfl, ?_⟩
        rw [hnew] at hacc
        simp at hacc
        simpa using hacc
  · intro s2 hs2
    unfold Descriptor.assign at hs2
    by_cases hacc : d.accepts new = true
    · rw [if_pos hacc] at hs2
      cases hs2
      rfl
    · rw [if_neg hacc] at hs2
      exact Except.noConfusion hs2
  · intro hsome
    unfold Descriptor.assignOrKeep at hsome ⊢
    cases hres : d.assign s new with
    | ok s2 => rw [hres] at hsome; simp at hsome
    | error e => rfl

/-- Witness for C8: assigning the integer `5` to `Stack.bullet`
(declared `Union[Bullet, str]`) raises `TypeConstraintError` and keeps
the stored value. -/
theorem property_type_enforcement_witness :
    Stack.bullet.assign ⟨.bullet .none, false, false⟩ (.int 5)
        = .error .typeConstraintError
      ∧ Stack.bullet.assignOrKeep ⟨.bullet .none, false, false⟩ (.int 5)
          = (⟨.bullet .none, false, false⟩, some .typeConstraintError) := by
  have h := property_type_enforcement Stack.bullet ⟨.bullet .none, false, false⟩ (.int 5)
  have herr : Stack.bullet.assign ⟨.bullet .none, false, false⟩ (.int 5)
      = .error .typeConstraintError :=
    h.1.mpr (Or.inr ⟨Ty.int, rfl, by decide⟩)
  refine ⟨herr, ?_⟩
  unfold Descriptor.assignOrKeep
  rw [herr]

/-- C10: every `Popup` property declares both rules as the constant
`False`, so an accepted assignment stores the new value and leaves both
dirty flags exactly as they were. -/
theorem popup_properties_never_invalidate (s : PropState) (new : Value) :
    (Popup.horizontal_offset.accepts new = true →
        Popup.horizontal_offset.assign s new
          = .ok ⟨new, s.measureDirty, s.paintDirty⟩)
      ∧ (Popup.placement.accepts new = true →
        Popup.placement.assign s new = .ok ⟨new, s.measureDirty, s.paintDirty⟩)
      ∧ (Popup.vertical_offset.accepts new = true →
        Popup.vertical_offset.assign s new = .ok ⟨new, s.measureDirty, s.paintDirty⟩) := by
  refine ⟨?_, ?_, ?_⟩ <;>
  · intro hacc
    unfold Descriptor.assign
    rw [if_pos hacc]
    simp [Popup.horizontal_offset, Popup.placement, Popup.vertical_offset,
      property, InvalidationRule.eval]

/-- Witness for C10: storing `7` into `Popup.horizontal_offset` on a
clean control keeps both flags clear. -/
theorem popup_properties_never_invalidate_witness :
    Popup.horizontal_offset.assign ⟨.int 0, false, false⟩ (.int 7)
      = .ok ⟨.int 7, false, false⟩ :=
  (popup_properties_never_invalidate ⟨.int 0, false, false⟩ (.int 7)).1 (by decide)

/-! ## Python numeric primitives used by `screen.drawing.color`

Python floats are tracked exactly as rationals.  `int(x)` truncates
toward zero; `round(x, 0)` rounds half to even; `x % 1.0` is the
floor-based remainder. -/

/-- Python `int(x)`: truncation toward zero. -/
def pyInt (q : ℚ) : ℤ :=
  if 0 ≤ q then ⌊q⌋ else ⌈q⌉

/-- Python `round(x, 0)`: round half to even. -/
def pyRound (q : ℚ) : ℤ :=
  if q - ⌊q⌋ < 1/2 then ⌊q⌋
  else if 1/2 < q - ⌊q⌋ then ⌊q⌋ + 1
  else if ⌊q⌋ % 2 = 0 then ⌊q⌋ else ⌊q⌋ + 1

/-- Python `x % 1.0`: floor-based remainder in `[0, 1)`. -/
def qmod1 (q : ℚ) : ℚ :=
  q - ⌊q⌋

/-! ## The CPython `colorsys` module (imported by `screen.drawing.color`)

Translated from `Lib/colorsys.py`: `rgb_to_hls`, `hls_to_rgb` (with its
helper `_v`), `rgb_to_hsv` and `hsv_to_rgb`, all over `[0, 1]`-scaled
components. -/

namespace colorsys

/-- `colorsys._v(m1, m2, hue)`. -/
def _v (m1 m2 hue : ℚ) : ℚ :=
  let hue := qmod1 hue
  if hue < 1/6 then m1 + (m2 - m1) * hue * 6
  else if hue < 1/2 then m2
  else if hue < 2/3 then m1 + (m2 - m1) * (2/3 - hue) * 6
  else m1

/-- `colorsys.rgb_to_hls(r, g, b)`. -/
def rgb_to_hls (r g b : ℚ) : ℚ × ℚ × ℚ :=
  let maxc := max r (max g b)
  let minc := min r (min g b)
  let sumc := maxc + minc
  let rangec := maxc - minc
  let l := sumc / 2
  if minc = maxc then (0, l, 0)
  else
    let s := if l ≤ 1/2 then rangec / sumc else rangec / (2 - sumc)
    let rc := (maxc - r) / rangec
    let gc := (maxc - g) / rangec
    let bc := (maxc - b) / rangec
    let h := if r = maxc then bc - gc
      else if g = maxc then 2 + rc - bc
      else 4 + gc - rc
    (qmod1 (h / 6), l, s)

/-- `colorsys.hls_to_rgb(h, l, s)`. -/
def hls_to_rgb (h l s : ℚ) : ℚ × ℚ × ℚ :=
  if s = 0 then (l, l, l)
  else
    let m2 := if l ≤ 1/2 then l * (1 + s) else l + s - l * s
    let m1 := 2 * l - m2
    (_v m1 m2 (h + 1/3), _v m1 m2 h, _v m1 m2 (h - 1/3))

/-- `colorsys.rgb_to_hsv(r, g, b)`. -/
def rgb_to_hsv (r g b : ℚ) : ℚ × ℚ × ℚ :=
  let maxc := max r (max g b)
  let minc := min r (min g b)
  let rangec := maxc - minc
  let v := maxc
  if minc = maxc then (0, 0, v)
  else
    let s := rangec / maxc
    let rc := (maxc - r) / rangec
    let gc := (maxc - g) / rangec
    let bc := (maxc - b) / rangec
    let h := if r = maxc then bc - gc
      else if g = maxc then 2 + rc - bc
      else 4 + gc - rc
    (qmod1 (h / 6), s, v)

/-- `colorsys.hsv_to_rgb(h, s, v)`; `i = int(h*6.0)` truncates and is
then reduced mod 6. -/
def hsv_to_rgb (h s v : ℚ) : ℚ × ℚ × ℚ :=
  if s = 0 then (v, v, v)
  else
    let i := pyInt (h * 6)
    let f := h * 6 - i
    let p := v * (1 - s)
    let q := v * (1 - s * f)
    let t := v * (1 - s * (1 - f))
    if i % 6 = 0 then (v, t, p)
    else if i % 6 = 1 then (q, v, p)
    else if i % 6 = 2 then (p, v, t)
    else if i % 6 = 3 then (p, q, v)
    else if i % 6 = 4 then (t, p, v)
    else (v, p, t)

end colorsys

/-! ## `screen.drawing.color` -/

/-- `ColorInterpolationMethod`, an `IntEnum` with members
`hsl = 1`, `hsv = 2`, `rgb = 3` (all truthy, so `method or rgb` in
`Color.interpolate` only substitutes the default for `None`). -/
inductive ColorInterpolationMethod
  | hsl
  | hsv
  | rgb
  deriving DecidableEq, Repr

/-- A drawable color: a packed 32-bit ARGB integer `self.value`
(`__eq__` compares the packed values). -/
structure Color where
  value : ℤ
  deriving DecidableEq, Repr

namespace Color

/-- `Color.from_argb(a, r, g, b)`: `a = int(a * 255)` then
`(a << 24) + (r << 16) + (g << 8) + b`; the shifts are multiplications
by `2 ** 24`, `2 ** 16`, `2 ** 8`. -/
def from_argb (a : ℚ) (r g b : ℤ) : Color :=
  ⟨pyInt (a * 255) * 16777216 + r * 65536 + g * 256 + b⟩

/-- `Color.from_rgb(r, g, b)`: `from_argb` with alpha level `1`. -/
def from_rgb (r g b : ℤ) : Color :=
  from_argb 1 r g b

/-- Accessor `Color.a`: `(self.value >> 24 & 0xFF) / 255`; the shift and
mask are floor division by `2 ** 24` and remainder mod `2 ** 8`. -/
def a (c : Color) : ℚ :=
  ((c.value / 16777216 % 256 : ℤ) : ℚ) / 255

/-- Accessor `Color.r`: `self.value >> 16 & 0xFF`. -/
def r (c : Color) : ℤ :=
  c.value / 65536 % 256

/-- Accessor `Color.g`: `self.value >> 8 & 0xFF`. -/
def g (c : Color) : ℤ :=
  c.value / 256 % 256

/-- Accessor `Color.b`: `self.value & 0xFF`. -/
def b (c : Color) : ℤ :=
  c.value % 256

/-- `Color._hsl_to_rgb(h, s, l)`: `h /= 360`, `colorsys.hls_to_rgb(h, l, s)`,
then each channel is `int(round(x * 255, 0))`. -/
def _hsl_to_rgb (h s l : ℚ) : ℤ × ℤ × ℤ :=
  let h := h / 360
  let rgb := colorsys.hls_to_rgb h l s
  (pyRound (rgb.1 * 255), pyRound (rgb.2.1 * 255), pyRound (rgb.2.2 * 255))

/-- `Color._hsv_to_rgb(h, s, v)`: `h /= 360`, `colorsys.hsv_to_rgb(h, s, v)`,
then each channel is `int(round(x * 255, 0))`. -/
def _hsv_to_rgb (h s v : ℚ) : ℤ × ℤ × ℤ :=
  let h := h / 360
  let rgb := colorsys.hsv_to_rgb h s v
  (pyRound (rgb.1 * 255), pyRound (rgb.2.1 * 255), pyRound (rgb.2.2 * 255))

/-- `Color._rgb_to_hsl(r, g, b)`: scale to `[0,1]`,
`colorsys.rgb_to_hls`, then `h = int(h * 360)` and reorder to `(h, s, l)`. -/
def _rgb_to_hsl (r g b : ℤ) : ℤ × ℚ × ℚ :=
  let hls := colorsys.rgb_to_hls ((r : ℚ) / 255) ((g : ℚ) / 255) ((b : ℚ) / 255)
  (pyInt (hls.1 * 360), hls.2.2, hls.2.1)

/-- `Color._rgb_to_hsv(r, g, b)`: scale to `[0,1]`,
`colorsys.rgb_to_hsv`, then `h = int(h * 360)`. -/
def _rgb_to_hsv (r g b : ℤ) : ℤ × ℚ × ℚ :=
  let hsv := colorsys.rgb_to_hsv ((r : ℚ) / 255) ((g : ℚ) / 255) ((b : ℚ) / 255)
  (pyInt (hsv.1 * 360), hsv.2.1, hsv.2.2)

/-- `Color.from_ahsl(a, h, s, l)`: `from_argb(a, *_hsl_to_rgb(h, s, l))`. -/
def from_ahsl (a h s l : ℚ) : Color :=
  let rgb := _hsl_to_rgb h s l
  from_argb a rgb.1 rgb.2.1 rgb.2.2

/-- `Color.from_ahsv(a, h, s, v)`: `from_argb(a, *_hsv_to_rgb(h, s, v))`. -/
def from_ahsv (a h s v : ℚ) : Color :=
  let rgb := _hsv_to_rgb h s v
  from_argb a rgb.1 rgb.2.1 rgb.2.2

/-- `Color.from_hsl(h, s, l)`: `from_ahsl` with alpha level `1`. -/
def from_hsl (h s l : ℚ) : Color :=
  from_ahsl 1 h s l

/-- `Color.from_hsv(h, s, v)`: `from_ahsv` with alpha level `1`. -/
def from_hsv (h s v : ℚ) : Color :=
  from_ahsv 1 h s v

/-- `Color._interpolate_hsl(c1, c2, p)`. -/
def _interpolate_hsl (c1 c2 : Color) (p : ℚ) : Color :=
  let hsl1 := _rgb_to_hsl c1.r c1.g c1.b
  let hsl2 := _rgb_to_hsl c2.r c2.g c2.b
  from_hsl (pyInt (utils.interpolate hsl1.1 hsl2.1 p) : ℤ)
    (utils.interpolate hsl1.2.1 hsl2.2.1 p)
    (utils.interpolate hsl1.2.2 hsl2.2.2 p)

/-- `Color._interpolate_hsv(c1, c2, p)`. -/
def _interpolate_hsv (c1 c2 : Color) (p : ℚ) : Color :=
  let hsv1 := _rgb_to_hsv c1.r c1.g c1.b
  let hsv2 := _rgb_to_hsv c2.r c2.g c2.b
  from_hsv (pyInt (utils.interpolate hsv1.1 hsv2.1 p) : ℤ)
    (utils.interpolate hsv1.2.1 hsv2.2.1 p)
    (utils.interpolate hsv1.2.2 hsv2.2.2 p)

/-- `Color._interpolate_rgb(c1, c2, p)`: each channel is
`int(utils.interpolate(...))` — truncation, not rounding. -/
def _interpolate_rgb (c1 c2 : Color) (p : ℚ) : Color :=
  from_rgb (pyInt (utils.interpolate c1.r c2.r p))
    (pyInt (utils.interpolate c1.g c2.g p))
    (pyInt (utils.interpolate c1.b c2.b p))

/-- `Color.interpolate(c1, c2, p, method=None)`:
`method = method or ColorInterpolationMethod.rgb`, then dispatch through
`_interpolation_method_map`. -/
def interpolate (c1 c2 : Color) (p : ℚ)
    (method : Option ColorInterpolationMethod) : Color :=
  match method.getD .rgb with
  | .hsl => _interpolate_hsl c1 c2 p
  | .hsv => _interpolate_hsv c1 c2 p
  | .rgb => _interpolate_rgb c1 c2 p

end Color

/-! ### Numeric helper lemmas -/

/-- On nonnegative arguments Python truncation is the floor. -/
theorem pyInt_of_nonneg (q : ℚ) (h : 0 ≤ q) : pyInt q = ⌊q⌋ :=
  if_pos h

/-- Python truncation is exact on integers. -/
theorem pyInt_intCast (n : ℤ) : pyInt (n : ℚ) = n := by
  unfold pyInt
  split
  · exact Int.floor_intCast n
  · exact Int.ceil_intCast n

/-- Evaluating `pyInt` on a nonnegative value bracketed by `n` and `n + 1`. -/
theorem pyInt_eq_of (q : ℚ) (n : ℤ) (hq : 0 ≤ q) (h1 : (n : ℚ) ≤ q)
    (h2 : q < (n : ℚ) + 1) : pyInt q = n := by
  rw [pyInt, if_pos hq]
  exact Int.floor_eq_iff.mpr ⟨h1, by linarith⟩

/-- Evaluating `pyRound` below the halfway point. -/
theorem pyRound_eq_low (q : ℚ) (n : ℤ) (h1 : (n : ℚ) ≤ q)
    (h2 : q < (n : ℚ) + 1/2) : pyRound q = n := by
  have hf : ⌊q⌋ = n := Int.floor_eq_iff.mpr ⟨h1, by linarith⟩
  unfold pyRound
  rw [hf, if_pos (by linarith)]

/-- Evaluating `pyRound` above the halfway point. -/
theorem pyRound_eq_high (q : ℚ) (n : ℤ) (h1 : (n : ℚ) + 1/2 < q)
    (h2 : q < (n : ℚ) + 1) : pyRound q = n + 1 := by
  have hf : ⌊q⌋ = n := Int.floor_eq_iff.mpr ⟨by linarith, by linarith⟩
  unfold pyRound
  rw [hf, if_neg (by linarith), if_pos (by linarith)]

/-- Evaluating the floor-based remainder on a bracketed value. -/
theorem qmod1_eq (q : ℚ) (n : ℤ) (h1 : (n : ℚ) ≤ q) (h2 : q < (n : ℚ) + 1) :
    qmod1 q = q - n := by
  unfold qmod1
  rw [Int.floor_eq_iff.mpr ⟨h1, by linarith⟩]

/-! ### Claim C5 -/

/-- C5: for channel values in range and `a` in `[0, 1]`,
`Color.from_argb` packs `int(a*255)` into bits 24–31 and `r`, `g`, `b`
into the lower three bytes, the `r`/`g`/`b` accessors recover their
inputs exactly, and the `a` accessor is within `1/255` of `a`. -/
theorem color_packing_roundtrip (a : ℚ) (r g b : ℤ)
    (ha : 0 ≤ a ∧ a ≤ 1) (hr : 0 ≤ r ∧ r ≤ 255)
    (hg : 0 ≤ g ∧ g ≤ 255) (hb : 0 ≤ b ∧ b ≤ 255) :
    (Color.from_argb a r g b).value
        = pyInt (a * 255) * 16777216 + r * 65536 + g * 256 + b
      ∧ (Color.from_argb a r g b).r = r
      ∧ (Color.from_argb a r g b).g = g
      ∧ (Color.from_argb a r g b).b = b
      ∧ |(Color.from_argb a r g b).a - a| ≤ 1/255 := by
  obtain ⟨ha0, ha1⟩ := ha
  have hq0 : 0 ≤ a * 255 := mul_nonneg ha0 (by norm_num)
  have hfl : pyInt (a * 255) = ⌊a * 255⌋ := pyInt_of_nonneg _ hq0
  have hlow : (pyInt (a * 255) : ℚ) ≤ a * 255 := by
    rw [hfl]; exact Int.floor_le _
  have hhigh : a * 255 < (pyInt (a * 255) : ℚ) + 1 := by
    rw [hfl]; exact Int.lt_floor_add_one _
  have haB0 : 0 ≤ pyInt (a * 255) := by
    rw [hfl]; exact Int.floor_nonneg.mpr hq0
  have haB255 : pyInt (a * 255) ≤ 255 := by
    rw [hfl]
    calc ⌊a * 255⌋ ≤ ⌊((255 : ℤ) : ℚ)⌋ :=
          Int.floor_le_floor (by push_cast; nlinarith)
      _ = 255 := Int.floor_intCast _
  refine ⟨rfl, ?_, ?_, ?_, ?_⟩
  · show (pyInt (a * 255) * 16777216 + r * 65536 + g * 256 + b) / 65536 % 256 = r
    omega
  · show (pyInt (a * 255) * 16777216 + r * 65536 + g * 256 + b) / 256 % 256 = g
    omega
  · show (pyInt (a * 255) * 16777216 + r * 65536 + g * 256 + b) % 256 = b
    omega
  · have hx : (pyInt (a * 255) * 16777216 + r * 65536 + g * 256 + b) / 16777216 % 256
        = pyInt (a * 255) := by omega
    show |(((pyInt (a * 255) * 16777216 + r * 65536 + g * 256 + b)
        / 16777216 % 256 : ℤ) : ℚ) / 255 - a| ≤ 1/255
    rw [hx, abs_le]
    constructor
    · linarith
    · linarith

/-- Witness for C5: the round-trip at `a = 1/2`, `(r, g, b) = (7, 8, 9)`. -/
theorem color_packing_roundtrip_witness :
    (Color.from_argb (1/2) 7 8 9).r = 7
      ∧ (Color.from_argb (1/2) 7 8 9).g = 8
      ∧ (Color.from_argb (1/2) 7 8 9).b = 9
      ∧ |(Color.from_argb (1/2) 7 8 9).a - 1/2| ≤ 1/255 := by
  have h := color_packing_roundtrip (1/2) 7 8 9
    (by norm_num) (by norm_num) (by norm_num) (by norm_num)
  exact ⟨h.2.1, h.2.2.1, h.2.2.2.1, h.2.2.2.2⟩

/-! ### Interpolation helper lemmas -/

/-- Linear interpolation at the start point. -/
theorem interpolate_at_zero (a b : ℚ) : utils.interpolate a b 0 = a := by
  unfold utils.interpolate; ring

/-- Linear interpolation at the end point. -/
theorem interpolate_at_one (a b : ℚ) : utils.interpolate a b 1 = b := by
  unfold utils.interpolate; ring

/-- Every accessor of a color is a byte in `[0, 255]`. -/
theorem channel_bounds (c : Color) :
    (0 ≤ c.r ∧ c.r ≤ 255) ∧ (0 ≤ c.g ∧ c.g ≤ 255) ∧ (0 ≤ c.b ∧ c.b ≤ 255) := by
  unfold Color.r Color.g Color.b
  refine ⟨⟨?_, ?_⟩, ⟨?_, ?_⟩, ⟨?_, ?_⟩⟩ <;> omega

/-- A linear interpolant of byte values at `p ∈ [0, 1]` stays in `[0, 255]`. -/
theorem interp_range (a b : ℤ) (p : ℚ) (hp0 : 0 ≤ p) (hp1 : p ≤ 1)
    (ha : 0 ≤ a ∧ a ≤ 255) (hb : 0 ≤ b ∧ b ≤ 255) :
    0 ≤ utils.interpolate a b p ∧ utils.interpolate a b p ≤ 255 := by
  have ha0 : (0 : ℚ) ≤ (a : ℚ) := by exact_mod_cast ha.1
  have ha1 : (a : ℚ) ≤ 255 := by exact_mod_cast ha.2
  have hb0 : (0 : ℚ) ≤ (b : ℚ) := by exact_mod_cast hb.1
  have hb1 : (b : ℚ) ≤ 255 := by exact_mod_cast hb.2
  unfold utils.interpolate
  constructor
  · nlinarith [mul_nonneg ha0 (sub_nonneg.mpr hp1), mul_nonneg hb0 hp0]
  · nlinarith [mul_nonneg (sub_nonneg.mpr ha1) (sub_nonneg.mpr hp1),
      mul_nonneg (sub_nonneg.mpr hb1) hp0]

/-- Truncation keeps `[0, 255]`. -/
theorem pyInt_range (q : ℚ) (h0 : 0 ≤ q) (h255 : q ≤ 255) :
    0 ≤ pyInt q ∧ pyInt q ≤ 255 := by
  rw [pyInt_of_nonneg _ h0]
  constructor
  · exact Int.floor_nonneg.mpr h0
  · calc ⌊q⌋ ≤ ⌊((255 : ℤ) : ℚ)⌋ := Int.floor_le_floor (by push_cast; linarith)
      _ = 255 := Int.floor_intCast _

/-- The accessors recover in-range channels packed by `from_rgb`. -/
theorem from_rgb_channels (x y z : ℤ) (hx : 0 ≤ x ∧ x ≤ 255)
    (hy : 0 ≤ y ∧ y ≤ 255) (hz : 0 ≤ z ∧ z ≤ 255) :
    (Color.from_rgb x y z).r = x ∧ (Color.from_rgb x y z).g = y
      ∧ (Color.from_rgb x y z).b = z := by
  unfold Color.from_rgb Color.from_argb Color.r Color.g Color.b
  have h255 : pyInt ((1 : ℚ) * 255) = 255 := by
    rw [show ((1 : ℚ) * 255) = ((255 : ℤ) : ℚ) by norm_num, pyInt_intCast]
  simp only [h255]
  refine ⟨?_, ?_, ?_⟩ <;> omega

/-- Repacking the channels of a fully opaque in-range color through
`from_rgb` reproduces the color. -/
theorem from_rgb_opaque (v : ℤ) (h1 : 4278190080 ≤ v) (h2 : v < 4294967296) :
    Color.from_rgb (Color.r ⟨v⟩) (Color.g ⟨v⟩) (Color.b ⟨v⟩) = ⟨v⟩ := by
  unfold Color.from_rgb Color.from_argb Color.r Color.g Color.b
  congr 1
  rw [show ((1 : ℚ) * 255) = ((255 : ℤ) : ℚ) by norm_num, pyInt_intCast]
  show 255 * 16777216 + v / 65536 % 256 * 65536 + v / 256 % 256 * 256 + v % 256 = v
  omega

/-! ### Claim C6 (corrected) -/

/-- Amended C6: for the RGB method and fully opaque in-range colors
(alpha byte `255`), interpolation at `p = 0` returns `c1` and at `p = 1`
returns `c2` exactly. -/
theorem color_interpolate_boundary_rgb_opaque (c1 c2 : Color)
    (h1 : 4278190080 ≤ c1.value ∧ c1.value < 4294967296)
    (h2 : 4278190080 ≤ c2.value ∧ c2.value < 4294967296) :
    Color.interpolate c1 c2 0 (some .rgb) = c1
      ∧ Color.interpolate c1 c2 1 (some .rgb) = c2 := by
  constructor
  · show Color._interpolate_rgb c1 c2 0 = c1
    unfold Color._interpolate_rgb
    rw [interpolate_at_zero, interpolate_at_zero, interpolate_at_zero,
      pyInt_intCast, pyInt_intCast, pyInt_intCast]
    exact from_rgb_opaque c1.value h1.1 h1.2
  · show Color._interpolate_rgb c1 c2 1 = c2
    unfold Color._interpolate_rgb
    rw [interpolate_at_one, interpolate_at_one, interpolate_at_one,
      pyInt_intCast, pyInt_intCast, pyInt_intCast]
    exact from_rgb_opaque c2.value h2.1 h2.2

/-- Witness for amended C6: the boundary identity between opaque black
`0xFF000000` and opaque white `0xFFFFFFFF`. -/
theorem color_interpolate_boundary_rgb_opaque_witness :
    Color.interpolate ⟨4278190080⟩ ⟨4294967295⟩ 0 (some .rgb) = ⟨4278190080⟩
      ∧ Color.interpolate ⟨4278190080⟩ ⟨4294967295⟩ 1 (some .rgb) = ⟨4294967295⟩ :=
  color_interpolate_boundary_rgb_opaque ⟨4278190080⟩ ⟨4294967295⟩
    (by norm_num) (by norm_num)

/-! ### Claim C7 (corrected) -/

/-- Amended C7: the RGB interpolation path stores the truncation toward
zero (`int(...)`) of each linearly interpolated channel — not its
nearest-integer rounding; the default method (`method=None`) is RGB. -/
theorem color_interpolate_rgb_truncates (c1 c2 : Color) (p : ℚ)
    (hp : 0 ≤ p ∧ p ≤ 1) :
    (Color.interpolate c1 c2 p (some .rgb)).r
        = pyInt (utils.interpolate (c1.r : ℚ) (c2.r : ℚ) p)
      ∧ (Color.interpolate c1 c2 p (some .rgb)).g
        = pyInt (utils.interpolate (c1.g : ℚ) (c2.g : ℚ) p)
      ∧ (Color.interpolate c1 c2 p (some .rgb)).b
        = pyInt (utils.interpolate (c1.b : ℚ) (c2.b : ℚ) p)
      ∧ Color.interpolate c1 c2 p Option.none
        = Color.interpolate c1 c2 p (some .rgb) := by
  obtain ⟨hcr1, hcg1, hcb1⟩ := channel_bounds c1
  obtain ⟨hcr2, hcg2, hcb2⟩ := channel_bounds c2
  have hrr := interp_range c1.r c2.r p hp.1 hp.2 hcr1 hcr2
  have hgg := interp_range c1.g c2.g p hp.1 hp.2 hcg1 hcg2
  have hbb := interp_range c1.b c2.b p hp.1 hp.2 hcb1 hcb2
  have h := from_rgb_channels
    (pyInt (utils.interpolate (c1.r : ℚ) (c2.r : ℚ) p))
    (pyInt (utils.interpolate (c1.g : ℚ) (c2.g : ℚ) p))
    (pyInt (utils.interpolate (c1.b : ℚ) (c2.b : ℚ) p))
    (pyInt_range _ hrr.1 hrr.2) (pyInt_range _ hgg.1 hgg.2)
    (pyInt_range _ hbb.1 hbb.2)
  exact ⟨h.1, h.2.1, h.2.2, rfl⟩

/-- Witness for amended C7: truncation observed at `p = 1/10` between
opaque black and opaque `(9, 9, 9)`. -/
theorem color_interpolate_rgb_truncates_witness :
    (Color.interpolate ⟨4278190080⟩ ⟨4278782217⟩ (1/10) (some .rgb)).r
        = pyInt (utils.interpolate ((Color.r ⟨4278190080⟩ : ℤ) : ℚ)
            ((Color.r ⟨4278782217⟩ : ℤ) : ℚ) (1/10))
      ∧ Color.interpolate ⟨4278190080⟩ ⟨4278782217⟩ (1/10) Option.none
        = Color.interpolate ⟨4278190080⟩ ⟨4278782217⟩ (1/10) (some .rgb) := by
  have h := color_interpolate_rgb_truncates ⟨4278190080⟩ ⟨4278782217⟩ (1/10)
    (by norm_num)
  exact ⟨h.1, h.2.2.2⟩

/-! ### Concrete evaluations for the interpolation counterexamples -/

/-- `Color.from_rgb(255, 1, 0)` packs to `0xFFFF0100`. -/
theorem from_rgb_255_1_0 : Color.from_rgb 255 1 0 = ⟨4294902016⟩ := by
  unfold Color.from_rgb Color.from_argb
  congr 1
  rw [show ((1 : ℚ) * 255) = ((255 : ℤ) : ℚ) by norm_num, pyInt_intCast]
  norm_num

/-- The channels of `0xFFFF0100` are `(255, 1, 0)`. -/
theorem channels_4294902016 :
    Color.r ⟨4294902016⟩ = 255 ∧ Color.g ⟨4294902016⟩ = 1
      ∧ Color.b ⟨4294902016⟩ = 0 := by
  refine ⟨?_, ?_, ?_⟩ <;> decide

/-- `colorsys.rgb_to_hls` on the scaled `(255, 1, 0)` channels. -/
theorem rgb_to_hls_255_1_0 :
    colorsys.rgb_to_hls (((255 : ℤ) : ℚ) / 255) (((1 : ℤ) : ℚ) / 255)
      (((0 : ℤ) : ℚ) / 255) = (1/1530, 1/2, 1) := by
  norm_num
  unfold colorsys.rgb_to_hls
  norm_num [max_def, min_def]
  rw [qmod1_eq _ 0 (by norm_num) (by norm_num)]
  norm_num

/-- `Color._rgb_to_hsl(255, 1, 0) = (0, 1, 1/2)`: the fractional hue
`(1/1530) * 360` is truncated to `0`. -/
theorem rgb_to_hsl_255_1_0 : Color._rgb_to_hsl 255 1 0 = (0, 1, 1/2) := by
  have h1 : pyInt ((1/1530 : ℚ) * 360) = 0 :=
    pyInt_eq_of _ 0 (by norm_num) (by norm_num) (by norm_num)
  simp only [Color._rgb_to_hsl, rgb_to_hls_255_1_0]
  rw [Prod.mk.injEq, Prod.mk.injEq]
  exact ⟨h1, rfl, rfl⟩

/-- `colorsys.hls_to_rgb(0, 1/2, 1) = (1, 0, 0)` — pure red. -/
theorem hls_to_rgb_red : colorsys.hls_to_rgb 0 (1/2) 1 = (1, 0, 0) := by
  have hv1 : colorsys._v 0 1 ((1 : ℚ)/3) = 1 := by
    simp only [colorsys._v]
    rw [qmod1_eq _ 0 (by norm_num) (by norm_num)]
    norm_num
  have hv2 : colorsys._v 0 1 (0 : ℚ) = 0 := by
    simp only [colorsys._v]
    rw [qmod1_eq _ 0 (by norm_num) (by norm_num)]
    norm_num
  have hv3 : colorsys._v 0 1 (-((1 : ℚ)/3)) = 0 := by
    simp only [colorsys._v]
    rw [qmod1_eq _ (-1) (by norm_num) (by norm_num)]
    norm_num
  simp only [colorsys.hls_to_rgb]
  norm_num
  exact ⟨hv1, hv2, hv3⟩

/-- `Color.from_hsl(0, 1, 1/2)` repacks to opaque pure red `0xFFFF0000`. -/
theorem from_hsl_red : Color.from_hsl 0 1 (1/2) = ⟨4294901760⟩ := by
  have hr1 : pyRound ((1 : ℚ) * 255) = 255 := by
    have h := pyRound_eq_low ((1 : ℚ) * 255) 255 (by norm_num) (by norm_num)
    simpa using h
  have hr0 : pyRound ((0 : ℚ) * 255) = 0 := by
    have h := pyRound_eq_low ((0 : ℚ) * 255) 0 (by norm_num) (by norm_num)
    simpa using h
  have hr1' : pyRound (255 : ℚ) = 255 := by
    have h := pyRound_eq_low (255 : ℚ) 255 (by norm_num) (by norm_num)
    simpa using h
  have hr0' : pyRound (0 : ℚ) = 0 := by
    have h := pyRound_eq_low (0 : ℚ) 0 (by norm_num) (by norm_num)
    simpa using h
  simp only [Color.from_hsl, Color.from_ahsl, Color._hsl_to_rgb]
  rw [show ((0 : ℚ) / 360) = (0 : ℚ) by norm_num, hls_to_rgb_red]
  norm_num [hr1, hr0, hr1', hr0']
  unfold Color.from_argb
  congr 1
  rw [show ((1 : ℚ) * 255) = ((255 : ℤ) : ℚ) by norm_num, pyInt_intCast]
  norm_num

/-- `colorsys.rgb_to_hsv` on the scaled `(255, 1, 0)` channels. -/
theorem rgb_to_hsv_255_1_0 :
    colorsys.rgb_to_hsv (((255 : ℤ) : ℚ) / 255) (((1 : ℤ) : ℚ) / 255)
      (((0 : ℤ) : ℚ) / 255) = (1/1530, 1, 1) := by
  norm_num
  unfold colorsys.rgb_to_hsv
  norm_num [max_def, min_def]
  rw [qmod1_eq _ 0 (by norm_num) (by norm_num)]
  norm_num

/-- `Color._rgb_to_hsv(255, 1, 0) = (0, 1, 1)`: the fractional hue is
truncated to `0`. -/
theorem rgb_to_hsv_255_1_0' : Color._rgb_to_hsv 255 1 0 = (0, 1, 1) := by
  have h1 : pyInt ((1/1530 : ℚ) * 360) = 0 :=
    pyInt_eq_of _ 0 (by norm_num) (by norm_num) (by norm_num)
  simp only [Color._rgb_to_hsv, rgb_to_hsv_255_1_0]
  rw [Prod.mk.injEq, Prod.mk.injEq]
  exact ⟨h1, rfl, rfl⟩

/-- `colorsys.hsv_to_rgb(0, 1, 1) = (1, 0, 0)` — pure red. -/
theorem hsv_to_rgb_red : colorsys.hsv_to_rgb 0 1 1 = (1, 0, 0) := by
  have hi : pyInt ((0 : ℚ) * 6) = 0 :=
    pyInt_eq_of _ 0 (by norm_num) (by norm_num) (by norm_num)
  simp only [colorsys.hsv_to_rgb, hi]
  norm_num

/-- `Color.from_hsv(0, 1, 1)` repacks to opaque pure red `0xFFFF0000`. -/
theorem from_hsv_red : Color.from_hsv 0 1 1 = ⟨4294901760⟩ := by
  have hr1 : pyRound ((1 : ℚ) * 255) = 255 := by
    have h := pyRound_eq_low ((1 : ℚ) * 255) 255 (by norm_num) (by norm_num)
    simpa using h
  have hr0 : pyRound ((0 : ℚ) * 255) = 0 := by
    have h := pyRound_eq_low ((0 : ℚ) * 255) 0 (by norm_num) (by norm_num)
    simpa using h
  have hr1' : pyRound (255 : ℚ) = 255 := by
    have h := pyRound_eq_low (255 : ℚ) 255 (by norm_num) (by norm_num)
    simpa using h
  have hr0' : pyRound (0 : ℚ) = 0 := by
    have h := pyRound_eq_low (0 : ℚ) 0 (by norm_num) (by norm_num)
    simpa using h
  simp only [Color.from_hsv, Color.from_ahsv, Color._hsv_to_rgb]
  rw [show ((0 : ℚ) / 360) = (0 : ℚ) by norm_num, hsv_to_rgb_red]
  norm_num [hr1, hr0, hr1', hr0']
  unfold Color.from_argb
  congr 1
  rw [show ((1 : ℚ) * 255) = ((255 : ℤ) : ℚ) by norm_num, pyInt_intCast]
  norm_num

/-- `Color.from_rgb(0, 0, 0)` packs to opaque black `0xFF000000`. -/
theorem from_rgb_0_0_0 : Color.from_rgb 0 0 0 = ⟨4278190080⟩ := by
  unfold Color.from_rgb Color.from_argb
  congr 1
  rw [show ((1 : ℚ) * 255) = ((255 : ℤ) : ℚ) by norm_num, pyInt_intCast]
  norm_num

/-- The channels of the fully transparent color `0` are all zero. -/
theorem channels_zero :
    Color.r ⟨0⟩ = 0 ∧ Color.g ⟨0⟩ = 0 ∧ Color.b ⟨0⟩ = 0 := by
  refine ⟨?_, ?_, ?_⟩ <;> decide

/-- C6 counterexample: the boundary identity fails as stated.  With the
RGB method a non-opaque color is not returned at `p = 0` (the repack
forces alpha `255`): interpolating from transparent black gives
`0xFF000000 ≠ 0x00000000`.  With the HSL and HSV methods the hue
truncation `int(h * 360)` is lossy: interpolating from `0xFFFF0100`
to itself at `p = 0` gives `0xFFFF0000 ≠ 0xFFFF0100`. -/
theorem color_interpolate_boundary_cex :
    Color.interpolate ⟨0⟩ ⟨0⟩ 0 (some .rgb) ≠ ⟨0⟩
      ∧ Color.interpolate (Color.from_rgb 255 1 0) (Color.from_rgb 255 1 0) 0
          (some .hsl) ≠ Color.from_rgb 255 1 0
      ∧ Color.interpolate (Color.from_rgb 255 1 0) (Color.from_rgb 255 1 0) 0
          (some .hsv) ≠ Color.from_rgb 255 1 0 := by
  refine ⟨?_, ?_, ?_⟩
  · show Color._interpolate_rgb ⟨0⟩ ⟨0⟩ 0 ≠ ⟨0⟩
    unfold Color._interpolate_rgb
    rw [channels_zero.1, channels_zero.2.1, channels_zero.2.2,
      interpolate_at_zero, pyInt_intCast, from_rgb_0_0_0]
    decide
  · show Color._interpolate_hsl (Color.from_rgb 255 1 0) (Color.from_rgb 255 1 0) 0
      ≠ Color.from_rgb 255 1 0
    rw [from_rgb_255_1_0]
    simp only [Color._interpolate_hsl]
    rw [channels_4294902016.1, channels_4294902016.2.1, channels_4294902016.2.2,
      rgb_to_hsl_255_1_0, interpolate_at_zero, interpolate_at_zero,
      interpolate_at_zero, pyInt_intCast]
    norm_num [from_hsl_red]
  · show Color._interpolate_hsv (Color.from_rgb 255 1 0) (Color.from_rgb 255 1 0) 0
      ≠ Color.from_rgb 255 1 0
    rw [from_rgb_255_1_0]
    simp only [Color._interpolate_hsv]
    rw [channels_4294902016.1, channels_4294902016.2.1, channels_4294902016.2.2,
      rgb_to_hsv_255_1_0']
    norm_num [interpolate_at_zero]
    rw [show pyInt (0 : ℚ) = 0 from
      pyInt_eq_of 0 0 (by norm_num) (by norm_num) (by norm_num)]
    norm_num [from_hsv_red]

/-- C7 counterexample: the RGB path truncates instead of rounding to
nearest: between black and `(9, 9, 9)` at `p = 1/10` the linear
interpolant of each channel is `9/10`, whose nearest integer is `1`,
but the stored channel is `int(9/10) = 0`. -/
theorem color_interpolate_truncation_cex :
    (Color.interpolate (Color.from_rgb 0 0 0) (Color.from_rgb 9 9 9) (1/10)
        (some .rgb)).r
      ≠ pyRound (utils.interpolate ((Color.from_rgb 0 0 0).r : ℚ)
          ((Color.from_rgb 9 9 9).r : ℚ) (1/10)) := by
  have hc0 := from_rgb_channels 0 0 0 (by norm_num) (by norm_num) (by norm_num)
  have hc9 := from_rgb_channels 9 9 9 (by norm_num) (by norm_num) (by norm_num)
  show (Color._interpolate_rgb (Color.from_rgb 0 0 0) (Color.from_rgb 9 9 9)
      (1/10)).r ≠ _
  unfold Color._interpolate_rgb
  rw [hc0.1, hc0.2.1, hc0.2.2, hc9.1, hc9.2.1, hc9.2.2]
  have hq : utils.interpolate ((0 : ℤ) : ℚ) ((9 : ℤ) : ℚ) (1/10) = 9/10 := by
    unfold utils.interpolate
    push_cast
    ring
  rw [hq, pyInt_eq_of (9/10 : ℚ) 0 (by norm_num) (by norm_num) (by norm_num)]
  have hpr : pyRound ((9 : ℚ)/10) = 1 := by
    have h := pyRound_eq_high ((9 : ℚ)/10) 0 (by norm_num) (by norm_num)
    simpa using h
  rw [hpr, hc0.1]
  decide

end Screen
